import Mathlib

/-!
Verification of the OpenISave personal-finance tracker.

The development shallowly embeds the two Python sources
(`finance_app.py`, the Flask app, and `server.py`, the plain HTTP
server).  SQLite tables become Lean lists kept in insertion (rowid)
order; REAL columns become `ℚ`; TEXT dates stay `String` and are
compared lexicographically, exactly as SQLite compares ISO dates.
`ORDER BY date DESC LIMIT 1` with no index is embedded as a scan that
keeps the current best row and replaces it only on a strictly newer
date, matching SQLite's observed stable behaviour (the first-inserted
row wins a date tie).
-/

namespace OpenISave

/-- `CURRENCIES` from finance_app.py. -/
def CURRENCIES : List String := ["CNY", "USD", "EUR", "GBP", "JPY", "CAD", "AUD"]

/-- `ALLOWED_TYPES` from finance_app.py (as a list). -/
def ALLOWED_TYPES : List String := ["income", "expense", "transfer"]

/-- A row of the `exchange_rates` table. -/
structure RateRow where
  id : Nat
  from_currency : String
  to_currency : String
  rate : ℚ
  date : String
  source : String
deriving DecidableEq

/-- A row of the `accounts` table (finance_app.py schema). -/
structure Account where
  id : Nat
  name : String
  currency : String
deriving DecidableEq

/-- A row of the `transactions` table (finance_app.py schema). -/
structure Tx where
  id : Nat
  date : String
  type : String
  category : String
  amount : ℚ
  currency : String
  account_id : Nat
  note : String
deriving DecidableEq

/-- The persistent state of the Flask app: the three tables, each a
list in insertion (rowid) order. -/
structure Store where
  accounts : List Account
  transactions : List Tx
  rates : List RateRow
deriving DecidableEq

/-- One step of the `ORDER BY date DESC LIMIT 1` scan: the kept row is
replaced only when the new row's date is strictly newer, so the
first-inserted row wins a date tie. -/
def pickStep (acc : Option RateRow) (r : RateRow) : Option RateRow :=
  match acc with
  | none => some r
  | some b => if b.date < r.date then some r else some b

/-- The row produced by `ORDER BY date DESC LIMIT 1` over `l` (rows in
insertion order). -/
def pickLatest (l : List RateRow) : Option RateRow :=
  l.foldl pickStep none

/-- The WHERE clause `from_currency = f AND to_currency = t`. -/
def matchPair (f t : String) (r : RateRow) : Bool :=
  r.from_currency = f && r.to_currency = t

/-- `SELECT rate FROM exchange_rates WHERE from_currency = f AND
to_currency = t ORDER BY date DESC LIMIT 1`. -/
def latestRate (rates : List RateRow) (f t : String) : Option ℚ :=
  (pickLatest (rates.filter (matchPair f t))).map (·.rate)

/-- The USD-bridge tail of `get_latest_rate` (finance_app.py lines
124-130): try from→USD and USD→to when neither end is USD, else 1.0. -/
def usdBridge (rates : List RateRow) (f t : String) : ℚ :=
  if f ≠ "USD" && t ≠ "USD" then
    match latestRate rates f "USD", latestRate rates "USD" t with
    | some x, some y => if x ≠ 0 && y ≠ 0 then x * y else 1
    | _, _ => 1
  else 1

/-- `get_latest_rate` from finance_app.py: direct rate, else reciprocal
of the reverse rate when nonzero, else the USD bridge, else 1.0. -/
def get_latest_rate (rates : List RateRow) (f t : String) : ℚ :=
  if f = t then 1
  else
    match latestRate rates f t with
    | some r => r
    | none =>
      match latestRate rates t f with
      | some r2 => if r2 ≠ 0 then 1 / r2 else usdBridge rates f t
      | none => usdBridge rates f t

/-- Steps 4 and 5 of the spec's resolution algorithm (§4.2), written
from the spec's words. -/
def resolveSpecBridge (rates : List RateRow) (f t : String) : ℚ :=
  if f = "USD" ∨ t = "USD" then 1
  else
    match latestRate rates f "USD", latestRate rates "USD" t with
    | some x, some y => if x = 0 ∨ y = 0 then 1 else x * y
    | _, _ => 1

/-- Spec-side resolver, written from the spec's five numbered steps
(§4.2): 1. same currency → 1.0; 2. most recent direct rate; 3. else
reciprocal of the most recent reverse rate if nonzero; 4. else, if
neither end is the bridge currency USD, the product of the most recent
from→USD and USD→to rates when both exist and are nonzero; 5. else 1.0. -/
def resolveSpec (rates : List RateRow) (f t : String) : ℚ :=
  if f = t then 1
  else
    match latestRate rates f t, latestRate rates t f with
    | some r, _ => r
    | none, some r2 =>
      if r2 = 0 then resolveSpecBridge rates f t else r2⁻¹
    | none, none => resolveSpecBridge rates f t

/-- Two-digit zero padding, as Python's `f"{m:02d}"`. -/
def pad2 (n : Nat) : String :=
  if n < 10 then "0" ++ toString n else toString n

/-- Four-digit zero padding, as in `date.isoformat()` years. -/
def pad4 (n : Nat) : String :=
  if n < 10 then "000" ++ toString n
  else if n < 100 then "00" ++ toString n
  else if n < 1000 then "0" ++ toString n
  else toString n

/-- `date(y, m, d).isoformat()`. -/
def formatIso (y m d : Nat) : String :=
  pad4 y ++ "-" ++ pad2 m ++ "-" ++ pad2 d

/-- Gregorian leap-year rule, as `datetime.date` uses. -/
def isLeap (y : Nat) : Bool :=
  (y % 4 = 0 && y % 100 ≠ 0) || y % 400 = 0

/-- Days in a month, as `datetime.date` validates. -/
def daysInMonth (y m : Nat) : Nat :=
  if m = 2 then (if isLeap y then 29 else 28)
  else if m = 4 ∨ m = 6 ∨ m = 9 ∨ m = 11 then 30
  else 31

/-- Split a character list at every dash, keeping empty groups, as
`"..".split("-")` does. -/
def splitOnDash : List Char → List (List Char)
  | [] => [[]]
  | c :: rest =>
    let r := splitOnDash rest
    if c = '-' then [] :: r
    else
      match r with
      | g :: gs => (c :: g) :: gs
      | [] => [[c]]

/-- Nonempty and all ASCII digits. -/
def allDigits (cs : List Char) : Bool :=
  cs.length > 0 && cs.all (·.isDigit)

/-- Numeric value of a digit list. -/
def digitsToNat (cs : List Char) : Nat :=
  cs.foldl (fun n c => n * 10 + (c.toNat - 48)) 0

/-- `parse_iso_date` from finance_app.py:
`datetime.strptime(s, "%Y-%m-%d").date()`.  Three dash-separated digit
groups (at most 4/2/2 digits, as the format directives consume), a
calendar-valid month/day, and a year in `datetime`'s 1..9999 range. -/
def parseIsoDate (s : String) : Option (Nat × Nat × Nat) :=
  match splitOnDash s.data with
  | [ys, ms, ds] =>
    if allDigits ys && allDigits ms && allDigits ds
        && ys.length ≤ 4 && ms.length ≤ 2 && ds.length ≤ 2 then
      let y := digitsToNat ys
      let mo := digitsToNat ms
      let da := digitsToNat ds
      if 1 ≤ y ∧ 1 ≤ mo ∧ mo ≤ 12 ∧ 1 ≤ da ∧ da ≤ daysInMonth y mo then
        some (y, mo, da)
      else none
    else none
  | _ => none

/-- The month filter `strftime('%Y', t.date) = str(year) AND
strftime('%m', t.date) = f"{int(month):02d}"` on ISO date strings. -/
def txMatchMonth (year month : Nat) (t : Tx) : Bool :=
  t.date.take 4 = toString year && (t.date.drop 5).take 2 = pad2 month

/-- `ORDER BY t.date DESC, t.id DESC`: `a` sorts no later than `b`. -/
def txLE (a b : Tx) : Bool :=
  b.date < a.date || (a.date = b.date && b.id ≤ a.id)

/-- Insertion step of the descending (date, id) sort. -/
def insertTx (a : Tx) : List Tx → List Tx
  | [] => [a]
  | b :: l => if txLE a b then a :: b :: l else b :: insertTx a l

/-- Sort by date descending then id descending. -/
def sortTx : List Tx → List Tx
  | [] => []
  | a :: l => insertTx a (sortTx l)

/-- `get_transactions` from finance_app.py: optional account filter
(skipped for a falsy id), optional month filter (applied only when both
year and month are truthy), sort by date then id descending, `LIMIT`. -/
def get_transactions (txs : List Tx) (limit : Nat) (account_id : Option Nat)
    (year month : Option Nat) : List Tx :=
  let l1 := match account_id with
    | some a => if a ≠ 0 then txs.filter (fun t => t.account_id = a) else txs
    | none => txs
  let l2 := match year, month with
    | some y, some m => if y ≠ 0 ∧ m ≠ 0 then l1.filter (txMatchMonth y m) else l1
    | _, _ => l1
  (sortTx l2).take limit

/-- The JSON monthly report payload (finance_app.py
`api_monthly_report`), category maps as Python-dict association lists. -/
structure Report where
  year : Nat
  month : Nat
  income_total : ℚ
  expense_total : ℚ
  net : ℚ
  transaction_count : Nat
  expense_by_category : List (String × ℚ)
  income_by_category : List (String × ℚ)
  transactions : List Tx
deriving DecidableEq

/-- `d[k] = d.get(k, 0) + v` on a Python dict kept as an association
list in key-insertion order. -/
def dictAdd (m : List (String × ℚ)) (k : String) (v : ℚ) : List (String × ℚ) :=
  match m with
  | [] => [(k, v)]
  | (k', v') :: rest =>
    if k' = k then (k', v' + v) :: rest else (k', v') :: dictAdd rest k v

/-- One iteration of the category-accumulation loop of
`api_monthly_report`: an expense goes to the first map, everything else
(income AND transfers) to the second. -/
def catStep (p : List (String × ℚ) × List (String × ℚ)) (t : Tx) :
    List (String × ℚ) × List (String × ℚ) :=
  if t.type = "expense" then (dictAdd p.1 t.category t.amount, p.2)
  else (p.1, dictAdd p.2 t.category t.amount)

/-- The category-accumulation loop of `api_monthly_report`. -/
def buildCats (txs : List Tx) : List (String × ℚ) × List (String × ℚ) :=
  txs.foldl catStep ([], [])

/-- Sum of the amounts of a transaction list. -/
def sumAmounts (l : List Tx) : ℚ := (l.map (·.amount)).sum

/-- Sum of the values of a category map. -/
def sumValues (m : List (String × ℚ)) : ℚ := (m.map (·.2)).sum

/-- `api_monthly_report` from finance_app.py: aggregates over
`get_transactions(limit=10000, account_id=None, year, month)`. -/
def api_monthly_report (store : Store) (year month : Nat) : Report :=
  let txs := get_transactions store.transactions 10000 none (some year) (some month)
  let income_total := sumAmounts (txs.filter (fun t => t.type = "income"))
  let expense_total := sumAmounts (txs.filter (fun t => t.type = "expense"))
  { year := year
    month := month
    income_total := income_total
    expense_total := expense_total
    net := income_total - expense_total
    transaction_count := txs.length
    expense_by_category := (buildCats txs).1
    income_by_category := (buildCats txs).2
    transactions := txs }

/-- Floor of a rational as an integer (den is positive). -/
def qfloor (q : ℚ) : ℤ := q.num.fdiv q.den

/-- Round-half-to-even on ℚ, as Python's `round` on an exact value. -/
def roundHalfEven (q : ℚ) : ℤ :=
  let f := qfloor q
  let frac := q - (f : ℚ)
  if frac < 1/2 then f
  else if frac > 1/2 then f + 1
  else if f % 2 = 0 then f else f + 1

/-- `round(x, 2)` from Python. -/
def round2 (q : ℚ) : ℚ := (roundHalfEven (q * 100) : ℚ) / 100

/-- The per-account balance loop of `api_dashboard` (finance_app.py
lines 298-310): start at 0, convert each of the account's transactions
to the account currency via `get_latest_rate`, subtract expenses, add
everything else, and round the end result to 2 decimal places. -/
def computeBalance (rates : List RateRow) (acc_currency : String)
    (txs : List Tx) : ℚ :=
  round2 (txs.foldl
    (fun bal t =>
      let converted := t.amount * get_latest_rate rates t.currency acc_currency
      if t.type = "expense" then bal - converted else bal + converted)
    0)

/-- Balance of one account row within a store, filtering
`WHERE account_id = ?` as `api_dashboard` does. -/
def accountBalance (store : Store) (acc : Account) : ℚ :=
  computeBalance store.rates acc.currency
    (store.transactions.filter (fun t => t.account_id = acc.id))

/-- Next SQLite rowid: one more than the largest id in the table. -/
def freshId (ids : List Nat) : Nat :=
  ids.foldl max 0 + 1

/-- Incoming body of `POST /api/transactions` for the Flask app.
`none` marks a missing key; `amount = some none` marks a value
`float(...)` rejects. -/
structure TxSubmission where
  date : Option String
  type : Option String
  category : Option String
  amount : Option (Option ℚ)
  currency : Option String
  account_id : Option Nat
  note : String
deriving DecidableEq

/-- ASCII lower-casing of one character, as `str.lower` does. -/
def charLower (c : Char) : Char :=
  if 65 ≤ c.toNat ∧ c.toNat ≤ 90 then Char.ofNat (c.toNat + 32) else c

/-- ASCII upper-casing of one character, as `str.upper` does. -/
def charUpper (c : Char) : Char :=
  if 97 ≤ c.toNat ∧ c.toNat ≤ 122 then Char.ofNat (c.toNat - 32) else c

/-- `s.lower()`. -/
def strLower (s : String) : String := ⟨s.data.map charLower⟩

/-- `s.upper()`. -/
def strUpper (s : String) : String := ⟨s.data.map charUpper⟩

/-- Whitespace for `str.strip`. -/
def isSpaceChar (c : Char) : Bool :=
  c = ' ' || c = '\t' || c = '\n' || c = '\r'

/-- Drop leading whitespace. -/
def dropLeadingSpaces : List Char → List Char
  | [] => []
  | c :: rest => if isSpaceChar c then dropLeadingSpaces rest else c :: rest

/-- `s.strip()`: drop whitespace at both ends. -/
def strTrim (s : String) : String :=
  ⟨(dropLeadingSpaces ((dropLeadingSpaces s.data).reverse)).reverse⟩

/-- `(s or 'CNY').upper()`. -/
def normCurrency (s : String) : String :=
  strUpper (if s = "" then "CNY" else s)

/-- `s.lower().strip()`. -/
def normType (s : String) : String :=
  strTrim (strLower s)

/-- `api_add_transaction` from finance_app.py: required-field loop in
order date, type, category, amount, currency; then date parse, type,
amount, currency checks, each returning the first violated constraint;
a falsy account_id defaults to the store's first account (400 when the
store has none); a supplied nonzero account_id is stored unchecked.
Returns the updated store and the new row's id, or the 400 error text. -/
def api_add_transaction (store : Store) (sub : TxSubmission) :
    Except String (Store × Nat) :=
  match sub.date, sub.type, sub.category, sub.amount, sub.currency with
  | none, _, _, _, _ => .error "date is required"
  | some _, none, _, _, _ => .error "type is required"
  | some _, some _, none, _, _ => .error "category is required"
  | some _, some _, some _, none, _ => .error "amount is required"
  | some _, some _, some _, some _, none => .error "currency is required"
  | some ds, some tys, some cats, some amt, some curs =>
    match parseIsoDate ds with
    | none => .error "Date must be in YYYY-MM-DD format"
    | some (y, mo, da) =>
      let ty := normType tys
      if ty ∉ ALLOWED_TYPES then
        .error "invalid type (allowed: ['expense', 'income', 'transfer'])"
      else
        match amt with
        | none => .error "Invalid amount; must be positive number"
        | some q =>
          if q ≤ 0 then .error "Invalid amount; must be positive number"
          else
            let cur := normCurrency curs
            if cur ∉ CURRENCIES then .error ("Unsupported currency: " ++ cur)
            else
              let insert (aid : Nat) : Except String (Store × Nat) :=
                let i := freshId (store.transactions.map (·.id))
                .ok ({ store with transactions := store.transactions ++
                        [{ id := i, date := formatIso y mo da, type := ty,
                           category := cats, amount := q, currency := cur,
                           account_id := aid, note := sub.note }] }, i)
              match sub.account_id with
              | some a =>
                if a ≠ 0 then insert a
                else
                  match store.accounts with
                  | [] => .error "No accounts found"
                  | acc :: _ => insert acc.id
              | none =>
                match store.accounts with
                | [] => .error "No accounts found"
                | acc :: _ => insert acc.id

/-- Incoming body of `POST /api/exchange-rates`. -/
structure RateSubmission where
  from_currency : Option String
  to_currency : Option String
  rate : Option (Option ℚ)
deriving DecidableEq

/-- `api_add_rate` from finance_app.py (`/api/exchange-rates` POST):
missing/empty fields → 400; unparsable or nonpositive rate → 400;
unsupported currency → 400; else append a `manual` row dated today. -/
def api_add_rate (rates : List RateRow) (sub : RateSubmission)
    (today : String) : Except String (List RateRow) :=
  let fc := strUpper ((sub.from_currency).getD "")
  let tc := strUpper ((sub.to_currency).getD "")
  if fc = "" ∨ tc = "" ∨ sub.rate = none then
    .error "All fields are required (from_currency, to_currency, rate)"
  else
    match sub.rate with
    | none => .error "All fields are required (from_currency, to_currency, rate)"
    | some none => .error "Invalid rate; must be positive number"
    | some (some q) =>
      if q ≤ 0 then .error "Invalid rate; must be positive number"
      else if fc ∉ CURRENCIES ∨ tc ∉ CURRENCIES then
        .error "Unsupported currency in from/to"
      else
        .ok (rates ++ [{ id := freshId (rates.map (·.id)),
                         from_currency := fc, to_currency := tc,
                         rate := q, date := today, source := "manual" }])

/-- `api_add_account` from finance_app.py: blank name → 400,
unsupported currency → 400, else append. -/
def api_add_account (accounts : List Account) (name currency : Option String) :
    Except String (List Account × Nat) :=
  let nm := strTrim (name.getD "")
  let cur := normCurrency (currency.getD "")
  if nm = "" then .error "Account name is required"
  else if cur ∉ CURRENCIES then .error ("Unsupported currency: " ++ cur)
  else
    let i := freshId (accounts.map (·.id))
    .ok (accounts ++ [{ id := i, name := nm, currency := cur }], i)

/-- The background body of `api_update_rates` (finance_app.py): on a
successful fetch (`resp = some rates`) it appends, for each supported
non-USD currency present in the response, a USD→currency row dated
today with source `api`, the fetched value stored unchecked; on failure
(`resp = none`) the exception is absorbed and the table is untouched. -/
def api_update_rates (rates : List RateRow) (resp : Option (List (String × ℚ)))
    (today : String) : List RateRow :=
  match resp with
  | none => rates
  | some fetched =>
    (CURRENCIES.filterMap
        (fun c => if c = "USD" then none
                  else (fetched.lookup c).map (fun q => (c, q)))).foldl
      (fun acc p =>
        acc ++ [{ id := freshId (acc.map (·.id)), from_currency := "USD",
                  to_currency := p.1, rate := p.2, date := today,
                  source := "api" }])
      rates

/-- The fixed mock payload of server.py `handle_update_rates`. -/
def serverMockRates : List (String × String × ℚ) :=
  [("USD", "CNY", 7.2345), ("EUR", "CNY", 7.8901), ("GBP", "CNY", 9.1234),
   ("CNY", "USD", 0.1383), ("CNY", "EUR", 0.1267), ("CNY", "GBP", 0.1096)]

/-- `handle_update_rates` from server.py: on success it first runs
`DELETE FROM exchange_rates`, then inserts the six mock rows dated
today with source `api` (AUTOINCREMENT ids continue past the old
maximum); on failure nothing is committed and the table is unchanged. -/
def handle_update_rates (rates : List RateRow) (today : String)
    (success : Bool) : List RateRow :=
  if success then
    (serverMockRates.enum).map
      (fun p => { id := freshId (rates.map (·.id)) + p.1,
                  from_currency := p.2.1, to_currency := p.2.2.1,
                  rate := p.2.2.2, date := today, source := "api" })
  else rates

/-- A row of server.py's `transactions` table (no account column). -/
structure ServerTx where
  id : Nat
  date : String
  type : String
  category : String
  amount : ℚ
  currency : String
  note : String
deriving DecidableEq

/-- Incoming body of `POST /api/transactions` for server.py. -/
structure ServerSubmission where
  date : Option String
  type : Option String
  category : Option String
  amount : Option ℚ
  currency : Option String
  note : Option String
deriving DecidableEq

/-- `handle_add_transaction` from server.py: no validation at all — it
reads the five fields (a missing one raises `KeyError`, answered with a
500) and inserts whatever values were sent. -/
def handle_add_transaction (txs : List ServerTx) (sub : ServerSubmission) :
    Except String (List ServerTx × Nat) :=
  match sub.date, sub.type, sub.category, sub.amount, sub.currency with
  | some d, some ty, some c, some a, some cur =>
    let i := freshId (txs.map (·.id))
    .ok (txs ++ [{ id := i, date := d, type := ty, category := c,
                   amount := a, currency := cur,
                   note := sub.note.getD "" }], i)
  | _, _, _, _, _ => .error "KeyError"

/-! Concrete stores and submissions used in the scenario theorems,
counterexamples and witnesses below. -/

/-- The default seed rate USD→CNY = 7.2 from `init_db`. -/
def rUSDCNY : RateRow := ⟨1, "USD", "CNY", 7.2, "2024-01-01", "default"⟩

/-- The seed account from `init_db`. -/
def mainAccountCNY : Account := ⟨1, "Main Account", "CNY"⟩

/-- A single income transaction of 10 USD on the seed account. -/
def tx10USD : Tx := ⟨1, "2024-03-01", "income", "Salary", 10, "USD", 1, ""⟩

/-- The store of the spec's balance scenario: one CNY account, one
10-USD income transaction, only the USD→CNY = 7.2 rate. -/
def balanceScenarioStore : Store := ⟨[mainAccountCNY], [tx10USD], [rUSDCNY]⟩

/-- Only EUR→USD and USD→JPY are stored: EUR→JPY must bridge. -/
def bridgeRatesEx : List RateRow :=
  [⟨1, "EUR", "USD", 2, "2024-01-01", "manual"⟩,
   ⟨2, "USD", "JPY", 3, "2024-01-01", "manual"⟩]

/-- The earlier-inserted of two same-date USD→CNY rows. -/
def tieRow7 : RateRow := ⟨1, "USD", "CNY", 7, "2024-01-01", "manual"⟩

/-- Two USD→CNY rows with the same date; the later one has rate 8. -/
def tieRates : List RateRow :=
  [tieRow7, ⟨2, "USD", "CNY", 8, "2024-01-01", "manual"⟩]

/-- A store whose only March-2024 transaction is a transfer of 50. -/
def transferStore : Store :=
  ⟨[mainAccountCNY], [⟨1, "2024-03-15", "transfer", "Other", 50, "CNY", 1, ""⟩], []⟩

/-- A pre-existing manually entered rate row. -/
def manualRow : RateRow := ⟨1, "USD", "CNY", 55, "2023-01-01", "manual"⟩

/-- A server.py submission with a negative amount. -/
def serverBadSub : ServerSubmission :=
  ⟨some "2024-01-01", some "expense", some "Food", some (-5), some "USD", none⟩

/-- The row server.py stores for `serverBadSub`. -/
def serverBadTx : ServerTx := ⟨1, "2024-01-01", "expense", "Food", -5, "USD", ""⟩

/-- A store holding just the seed account. -/
def oneAccountStore : Store := ⟨[mainAccountCNY], [], []⟩

/-- A completely empty store. -/
def emptyStore : Store := ⟨[], [], []⟩

/-- A well-formed Flask submission (fields needing normalization). -/
def subGood : TxSubmission :=
  ⟨some "2024-3-1", some " Income ", some "Salary", some (some 5), some "usd",
   none, ""⟩

/-- The row `api_add_transaction oneAccountStore subGood` inserts. -/
def wTxGood : Tx := ⟨1, "2024-03-01", "income", "Salary", 5, "USD", 1, ""⟩

/-- The store after accepting `subGood`. -/
def storeAfterGood : Store := ⟨[mainAccountCNY], [wTxGood], []⟩

/-- A submission naming account 999, which does not exist. -/
def sub999 : TxSubmission :=
  ⟨some "2024-03-01", some "income", some "Salary", some (some 10), some "USD",
   some 999, ""⟩

/-- The store after accepting `sub999`: the stored row references
account 999 although only account 1 exists. -/
def storeAfter999 : Store :=
  ⟨[mainAccountCNY],
   [⟨1, "2024-03-01", "income", "Salary", 10, "USD", 999, ""⟩], []⟩

/-- A well-formed submission that does not name an account. -/
def subNoAid : TxSubmission :=
  ⟨some "2024-03-01", some "income", some "Salary", some (some 10), some "USD",
   none, ""⟩

/-- A malformed-date submission (month 13). -/
def subBadDate : TxSubmission :=
  ⟨some "2024-13-01", some "income", some "Salary", some (some 10), some "USD",
   none, ""⟩

/-- One March-2024 income transaction, repeated to overflow the limit. -/
def repTx : Tx := ⟨1, "2024-03-10", "income", "Salary", 1, "CNY", 1, ""⟩

/-- A store whose March 2024 holds 10001 transactions. -/
def bigStore : Store := ⟨[mainAccountCNY], List.replicate 10001 repTx, []⟩

/-- The month-filtered (untruncated) transaction list of a store. -/
def monthFiltered (store : Store) (y m : Nat) : List Tx :=
  store.transactions.filter (txMatchMonth y m)

/-- The data the PDF report (api_monthly_report_pdf) derives from its
`get_transactions(limit=10000, ...)` call: income total, expense
total, row count. -/
def api_monthly_report_pdf_data (store : Store) (y m : Nat) : ℚ × ℚ × Nat :=
  let txs := get_transactions store.transactions 10000 none (some y) (some m)
  (sumAmounts (txs.filter (fun t => t.type = "income")),
   sumAmounts (txs.filter (fun t => t.type = "expense")),
   txs.length)

/-- Invariant claimed for transaction rows. -/
def txInv (t : Tx) : Prop := 0 < t.amount ∧ t.currency ∈ CURRENCIES

/-- Invariant claimed for exchange-rate rows. -/
def rateInv (r : RateRow) : Prop :=
  0 < r.rate ∧ r.from_currency ∈ CURRENCIES ∧ r.to_currency ∈ CURRENCIES

/-- Invariant claimed for account rows. -/
def accountInv (a : Account) : Prop := a.currency ∈ CURRENCIES

/-- The account of a submission is resolvable: either a nonzero id was
supplied (stored unchecked), or it was omitted/falsy and the store has
a first account to default to. -/
def accountResolvable (store : Store) (sub : TxSubmission) : Prop :=
  (∃ a, sub.account_id = some a ∧ a ≠ 0) ∨
    ((sub.account_id = none ∨ sub.account_id = some 0) ∧ store.accounts ≠ [])

/-- The account id `api_add_transaction` will store: a supplied nonzero
id as-is (no existence check), else the first account's id, else none. -/
def resolvedAccount (store : Store) (sub : TxSubmission) : Option Nat :=
  match sub.account_id with
  | some a => if a ≠ 0 then some a else (store.accounts.head?).map (·.id)
  | none => (store.accounts.head?).map (·.id)

/-! ## Theorems -/

/-- The two bridge computations — the code's and the spec's — agree. -/
theorem usdBridge_eq_spec (rates : List RateRow) (f t : String) :
    usdBridge rates f t = resolveSpecBridge rates f t := by
  unfold usdBridge resolveSpecBridge
  by_cases hf : f = "USD"
  · simp [hf]
  · by_cases ht : t = "USD"
    · simp [ht]
    · simp only [hf, ht, or_self, if_false, ne_eq, not_false_iff,
        Bool.and_self, if_true, or_false, false_or, decide_not,
        Bool.not_eq_true', decide_eq_false_iff_not]
      simp only [hf, ht, not_false_iff, decide_eq_true_eq, if_true,
        or_self, if_false]
      cases latestRate rates f "USD" with
      | none => rfl
      | some x =>
        cases latestRate rates "USD" t with
        | none => rfl
        | some y =>
          by_cases hx : x = 0
          · simp [hx]
          · by_cases hy : y = 0
            · simp [hx, hy]
            · simp [hx, hy]

/-- C9: `resolve(c, c)` is 1.0 for every supported currency, whatever
the rate table holds — the equality check precedes any lookup. -/
theorem resolve_same_currency (rates : List RateRow) (c : String)
    (_hc : c ∈ CURRENCIES) : get_latest_rate rates c c = 1 := by
  simp [get_latest_rate]

/-- Witness for `resolve_same_currency` at CNY over the tie store. -/
theorem resolve_same_currency_witness :
    "CNY" ∈ CURRENCIES ∧ get_latest_rate tieRates "CNY" "CNY" = 1 :=
  ⟨by decide, resolve_same_currency tieRates "CNY" (by decide)⟩

/-- C1: for distinct currencies, `get_latest_rate` follows exactly the
spec's resolution order — direct rate, else reciprocal of a nonzero
reverse rate, else the USD bridge when neither side is USD and both
legs exist and are nonzero, else the 1.0 fallback. -/
theorem resolve_matches_spec (rates : List RateRow) (f t : String)
    (h : f ≠ t) : get_latest_rate rates f t = resolveSpec rates f t := by
  unfold get_latest_rate resolveSpec
  rw [if_neg h, if_neg h]
  cases hd : latestRate rates f t with
  | some r => rfl
  | none =>
    cases hr : latestRate rates t f with
    | some r2 =>
      by_cases h2 : r2 = 0
      · simp [h2, usdBridge_eq_spec]
      · simp [h2, one_div]
    | none => simp [usdBridge_eq_spec]

/-- Witness for `resolve_matches_spec`: the bridging scenario EUR→JPY
with only EUR→USD = 2 and USD→JPY = 3 stored resolves to their
product 6. -/
theorem resolve_matches_spec_witness :
    ("EUR" : String) ≠ "JPY" ∧
      get_latest_rate bridgeRatesEx "EUR" "JPY" =
        resolveSpec bridgeRatesEx "EUR" "JPY" ∧
      get_latest_rate bridgeRatesEx "EUR" "JPY" = 6 :=
  ⟨by decide, resolve_matches_spec bridgeRatesEx "EUR" "JPY" (by decide),
    by
      simp only [get_latest_rate, latestRate, pickLatest, pickStep, matchPair,
        bridgeRatesEx, usdBridge, List.filter, List.foldl, Option.map]
      norm_num
      decide⟩

/-- Characterization of the `ORDER BY date DESC LIMIT 1` scan resumed
from a kept row `b`: either nothing beats `b`, or the result is the
first strictly-newer maximal row. -/
theorem foldl_pickStep_char (l : List RateRow) :
    ∀ b c : RateRow, l.foldl pickStep (some b) = some c →
      (c = b ∧ ∀ x ∈ l, x.date ≤ b.date) ∨
      (b.date < c.date ∧ ∃ l₁ l₂, l = l₁ ++ c :: l₂ ∧
        (∀ x ∈ l₁, x.date < c.date) ∧ (∀ x ∈ l₂, x.date ≤ c.date)) := by
  induction l with
  | nil =>
    intro b c h
    exact Or.inl ⟨(Option.some.injEq .. ▸ h).symm, by simp⟩
  | cons r l ih =>
    intro b c h
    rw [List.foldl_cons] at h
    by_cases hbr : b.date < r.date
    · rw [show pickStep (some b) r = some r by simp [pickStep, hbr]] at h
      rcases ih r c h with ⟨rfl, hall⟩ | ⟨hlt, l₁, l₂, rfl, h1, h2⟩
      · exact Or.inr ⟨hbr, [], l, rfl, by simp, hall⟩
      · exact Or.inr ⟨lt_trans hbr hlt, r :: l₁, l₂, rfl,
          by
            intro x hx
            rcases List.mem_cons.mp hx with rfl | hx
            · exact hlt
            · exact h1 x hx,
          h2⟩
    · rw [show pickStep (some b) r = some b by simp [pickStep, hbr]] at h
      rcases ih b c h with ⟨rfl, hall⟩ | ⟨hlt, l₁, l₂, rfl, h1, h2⟩
      · refine Or.inl ⟨rfl, ?_⟩
        intro x hx
        rcases List.mem_cons.mp hx with rfl | hx
        · exact le_of_not_lt hbr
        · exact hall x hx
      · exact Or.inr ⟨hlt, r :: l₁, l₂, rfl,
          by
            intro x hx
            rcases List.mem_cons.mp hx with rfl | hx
            · exact lt_of_le_of_lt (le_of_not_lt hbr) hlt
            · exact h1 x hx,
          h2⟩

/-- C8 (amended): the rate the resolver uses for a pair is the first
row, in insertion order, among the pair's rows of maximal date: every
earlier row has a strictly older date and every later row has a date no
newer — so a date tie is won by the EARLIEST-inserted row, not the
latest. -/
theorem resolver_tie_earliest_wins (rs : List RateRow) (f t : String)
    (b : RateRow) (h : pickLatest (rs.filter (matchPair f t)) = some b) :
    latestRate rs f t = some b.rate ∧
      ∃ l₁ l₂, rs.filter (matchPair f t) = l₁ ++ b :: l₂ ∧
        (∀ x ∈ l₁, x.date < b.date) ∧ (∀ x ∈ l₂, x.date ≤ b.date) := by
  refine ⟨by rw [latestRate, h]; rfl, ?_⟩
  rcases hl : rs.filter (matchPair f t) with _ | ⟨r, l⟩
  · rw [hl] at h
    exact absurd h (by simp [pickLatest])
  · rw [hl] at h
    rw [pickLatest, List.foldl_cons,
      show pickStep none r = some r from rfl] at h
    rcases foldl_pickStep_char l r b h with ⟨rfl, hall⟩ | ⟨hlt, l₁, l₂, rfl, h1, h2⟩
    · exact ⟨[], l, rfl, by simp, hall⟩
    · refine ⟨r :: l₁, l₂, rfl, ?_, h2⟩
      intro x hx
      rcases List.mem_cons.mp hx with rfl | hx
      · exact hlt
      · exact h1 x hx

/-- Witness for `resolver_tie_earliest_wins` on the two-row tie store:
the resolver's answer is the first row's rate 7. -/
theorem resolver_tie_earliest_wins_witness :
    latestRate tieRates "USD" "CNY" = some tieRow7.rate :=
  (resolver_tie_earliest_wins tieRates "USD" "CNY" tieRow7
    (by simp [pickLatest, pickStep, matchPair, tieRates, tieRow7,
          List.filter, List.foldl])).1

/-- C8 counterexample: two USD→CNY rows share the date "2024-01-01",
the earlier with rate 7 and the later with rate 8; the resolver returns
7, not the later-inserted 8 the claim predicts. -/
theorem resolver_tie_counterexample :
    get_latest_rate tieRates "USD" "CNY" = 7 ∧
      get_latest_rate tieRates "USD" "CNY" ≠ 8 := by
  have h : get_latest_rate tieRates "USD" "CNY" = 7 := by
    simp [get_latest_rate, latestRate, pickLatest, pickStep, matchPair,
      tieRates, tieRow7, List.filter, List.foldl]
  exact ⟨h, by rw [h]; decide⟩

/-- The balance accumulation loop, folded from any starting value, adds
the signed converted amounts of the transactions. -/
theorem balance_foldl_signed (rates : List RateRow) (c : String) :
    ∀ (txs : List Tx) (init : ℚ),
      txs.foldl
        (fun bal t =>
          let converted := t.amount * get_latest_rate rates t.currency c
          if t.type = "expense" then bal - converted else bal + converted)
        init
        = init + (txs.map (fun t =>
            (if t.type = "expense" then (-1 : ℚ) else 1) *
              (t.amount * get_latest_rate rates t.currency c))).sum := by
  intro txs
  induction txs with
  | nil => intro init; simp
  | cons t l ih =>
    intro init
    rw [List.foldl_cons, List.map_cons, List.sum_cons, ih]
    by_cases ht : t.type = "expense" <;> simp [ht] <;> ring

/-- `qfloor` of an integer is that integer. -/
theorem qfloor_intCast (n : ℤ) : qfloor (n : ℚ) = n := by
  simp [qfloor, Rat.num_intCast, Rat.den_intCast, Int.fdiv_one]

/-- `roundHalfEven` of an integer is that integer. -/
theorem roundHalfEven_intCast (n : ℤ) : roundHalfEven (n : ℚ) = n := by
  simp only [roundHalfEven, qfloor_intCast, sub_self]
  norm_num

/-- `round2` of the integer 72 is 72. -/
theorem round2_seventyTwo : round2 72 = 72 := by
  have h : (72 : ℚ) * 100 = ((7200 : ℤ) : ℚ) := by norm_num
  rw [round2, h, roundHalfEven_intCast]
  norm_num

/-- C3: `computeBalance` equals the 2-decimal rounding of the sum of
each transaction's amount times the resolved multiplier into the
account currency, signed −1 for expenses and +1 otherwise (transfers
additive); and in the spec's scenario — only USD→CNY = 7.2 stored, a
CNY account with a single 10-USD income — the balance is 72.00. -/
theorem compute_balance_signed_sum :
    (∀ (rates : List RateRow) (c : String) (txs : List Tx),
      computeBalance rates c txs
        = round2 ((txs.map (fun t =>
            (if t.type = "expense" then (-1 : ℚ) else 1) *
              (t.amount * get_latest_rate rates t.currency c))).sum)) ∧
    accountBalance balanceScenarioStore mainAccountCNY = 72 := by
  constructor
  · intro rates c txs
    rw [computeBalance, balance_foldl_signed, zero_add]
  · have hrate : get_latest_rate [rUSDCNY] "USD" "CNY" = 7.2 := by
      simp [get_latest_rate, latestRate, pickLatest, pickStep, matchPair,
        rUSDCNY, List.filter]
    have hfilter : balanceScenarioStore.transactions.filter
        (fun t => t.account_id = mainAccountCNY.id) = [tx10USD] := by decide
    rw [accountBalance, hfilter, computeBalance, List.foldl_cons,
      List.foldl_nil]
    show round2 (if tx10USD.type = "expense" then _ else _) = 72
    rw [if_neg (by decide)]
    have h10 : tx10USD.amount = 10 := rfl
    have hc : tx10USD.currency = "USD" := rfl
    rw [h10, hc, show balanceScenarioStore.rates = [rUSDCNY] from rfl,
      show mainAccountCNY.currency = "CNY" from rfl, hrate]
    have : (0 : ℚ) + 10 * 7.2 = 72 := by norm_num
    rw [this, round2_seventyTwo]

/-- Adding `v` under key `k` raises the value-sum of a dict by `v`. -/
theorem sumValues_dictAdd (m : List (String × ℚ)) (k : String) (v : ℚ) :
    sumValues (dictAdd m k v) = sumValues m + v := by
  induction m with
  | nil => simp [dictAdd, sumValues]
  | cons p rest ih =>
    obtain ⟨k', v'⟩ := p
    by_cases h : k' = k
    · simp only [dictAdd, if_pos h, sumValues, List.map_cons, List.sum_cons]
      ring
    · simp only [dictAdd, if_neg h, sumValues, List.map_cons, List.sum_cons] at *
      rw [ih]
      ring

/-- The category fold accumulates exactly the expense amounts into the
first map's values and the non-expense amounts into the second's. -/
theorem catFold_sums (l : List Tx) :
    ∀ p : List (String × ℚ) × List (String × ℚ),
      sumValues (l.foldl catStep p).1
          = sumValues p.1 + sumAmounts (l.filter (fun t => t.type = "expense")) ∧
        sumValues (l.foldl catStep p).2
          = sumValues p.2 + sumAmounts (l.filter (fun t => t.type ≠ "expense")) := by
  induction l with
  | nil => intro p; simp [sumAmounts]
  | cons t rest ih =>
    intro p
    rw [List.foldl_cons]
    by_cases h : t.type = "expense"
    · have hc : catStep p t = (dictAdd p.1 t.category t.amount, p.2) := by
        rw [catStep, if_pos h]
      rw [hc]
      obtain ⟨ih1, ih2⟩ := ih (dictAdd p.1 t.category t.amount, p.2)
      refine ⟨?_, ?_⟩
      · rw [ih1, sumValues_dictAdd]
        have hf : List.filter (fun t => t.type = "expense") (t :: rest)
            = t :: List.filter (fun t => t.type = "expense") rest := by
          simp [List.filter_cons, h]
        rw [hf]
        simp only [sumAmounts, List.map_cons, List.sum_cons]
        ring
      · rw [ih2]
        have hf : List.filter (fun t => t.type ≠ "expense") (t :: rest)
            = List.filter (fun t => t.type ≠ "expense") rest := by
          simp [List.filter_cons, h]
        rw [hf]
    · have hc : catStep p t = (p.1, dictAdd p.2 t.category t.amount) := by
        rw [catStep, if_neg h]
      rw [hc]
      obtain ⟨ih1, ih2⟩ := ih (p.1, dictAdd p.2 t.category t.amount)
      refine ⟨?_, ?_⟩
      · rw [ih1]
        have hf : List.filter (fun t => t.type = "expense") (t :: rest)
            = List.filter (fun t => t.type = "expense") rest := by
          simp [List.filter_cons, h]
        rw [hf]
      · rw [ih2, sumValues_dictAdd]
        have hf : List.filter (fun t => t.type ≠ "expense") (t :: rest)
            = t :: List.filter (fun t => t.type ≠ "expense") rest := by
          simp [List.filter_cons, h]
        rw [hf]
        simp only [sumAmounts, List.map_cons, List.sum_cons]
        ring

/-- Non-expense amounts split into income amounts plus the amounts that
are neither income nor expense (the transfers). -/
theorem sumAmounts_nonexpense_split (l : List Tx) :
    sumAmounts (l.filter (fun t => t.type ≠ "expense"))
      = sumAmounts (l.filter (fun t => t.type = "income"))
        + sumAmounts (l.filter (fun t => t.type ≠ "expense" ∧ t.type ≠ "income")) := by
  induction l with
  | nil => simp [sumAmounts]
  | cons t rest ih =>
    by_cases hi : t.type = "income"
    · have he : ¬ t.type = "expense" := by rw [hi]; decide
      have h1 : List.filter (fun t => t.type ≠ "expense") (t :: rest)
          = t :: List.filter (fun t => t.type ≠ "expense") rest := by
        simp [List.filter_cons, he]
      have h2 : List.filter (fun t => t.type = "income") (t :: rest)
          = t :: List.filter (fun t => t.type = "income") rest := by
        simp [List.filter_cons, hi]
      have h3 : List.filter (fun t => t.type ≠ "expense" ∧ t.type ≠ "income")
            (t :: rest)
          = List.filter (fun t => t.type ≠ "expense" ∧ t.type ≠ "income") rest := by
        simp [List.filter_cons, hi]
      rw [h1, h2, h3]
      simp only [sumAmounts, List.map_cons, List.sum_cons] at *
      rw [ih]
      ring
    · by_cases he : t.type = "expense"
      · have h1 : List.filter (fun t => t.type ≠ "expense") (t :: rest)
            = List.filter (fun t => t.type ≠ "expense") rest := by
          simp [List.filter_cons, he]
        have h2 : List.filter (fun t => t.type = "income") (t :: rest)
            = List.filter (fun t => t.type = "income") rest := by
          simp [List.filter_cons, hi]
        have h3 : List.filter (fun t => t.type ≠ "expense" ∧ t.type ≠ "income")
              (t :: rest)
            = List.filter (fun t => t.type ≠ "expense" ∧ t.type ≠ "income") rest := by
          simp [List.filter_cons, he]
        rw [h1, h2, h3, ih]
      · have h1 : List.filter (fun t => t.type ≠ "expense") (t :: rest)
            = t :: List.filter (fun t => t.type ≠ "expense") rest := by
          simp [List.filter_cons, he]
        have h2 : List.filter (fun t => t.type = "income") (t :: rest)
            = List.filter (fun t => t.type = "income") rest := by
          simp [List.filter_cons, hi]
        have h3 : List.filter (fun t => t.type ≠ "expense" ∧ t.type ≠ "income")
              (t :: rest)
            = t :: List.filter (fun t => t.type ≠ "expense" ∧ t.type ≠ "income") rest := by
          simp [List.filter_cons, he, hi]
        rw [h1, h2, h3]
        simp only [sumAmounts, List.map_cons, List.sum_cons] at *
        rw [ih]
        ring

/-- C2 (amended): the report always satisfies
`income_total - expense_total = net` and the expense breakdown sums to
`expense_total`; but the income breakdown sums to `income_total` PLUS
the month's transfer amounts, because the aggregation loop routes every
non-expense transaction (transfers included) into `income_by_category`
while `income_total` counts only type `income`. -/
theorem report_identities (store : Store) (y m : Nat) :
    (api_monthly_report store y m).income_total
        - (api_monthly_report store y m).expense_total
      = (api_monthly_report store y m).net ∧
    sumValues (api_monthly_report store y m).expense_by_category
      = (api_monthly_report store y m).expense_total ∧
    sumValues (api_monthly_report store y m).income_by_category
      = (api_monthly_report store y m).income_total
        + sumAmounts ((api_monthly_report store y m).transactions.filter
            (fun t => t.type ≠ "expense" ∧ t.type ≠ "income")) := by
  refine ⟨rfl, ?_, ?_⟩
  · show sumValues (buildCats (get_transactions store.transactions 10000
        none (some y) (some m))).1
      = sumAmounts ((get_transactions store.transactions 10000
          none (some y) (some m)).filter (fun t => t.type = "expense"))
    rw [buildCats, (catFold_sums _ _).1]
    simp [sumValues]
  · show sumValues (buildCats (get_transactions store.transactions 10000
        none (some y) (some m))).2
      = sumAmounts ((get_transactions store.transactions 10000
            none (some y) (some m)).filter (fun t => t.type = "income"))
        + sumAmounts ((get_transactions store.transactions 10000
            none (some y) (some m)).filter
              (fun t => t.type ≠ "expense" ∧ t.type ≠ "income"))
    rw [buildCats, (catFold_sums _ _).2]
    simp only [sumValues, List.map_nil, List.sum_nil, zero_add]
    exact sumAmounts_nonexpense_split _

/-- C2 counterexample: a month holding one transfer of 50 yields
`income_total = 0` but an income breakdown summing to 50 — the claimed
identity `sum(income_by_category) = income_total` fails. -/
theorem report_income_breakdown_counterexample :
    sumValues (api_monthly_report transferStore 2024 3).income_by_category
      ≠ (api_monthly_report transferStore 2024 3).income_total := by
  have h1 : (api_monthly_report transferStore 2024 3).income_by_category
      = [("Other", 50)] := by rfl
  have h2 : (api_monthly_report transferStore 2024 3).income_total = 0 := by rfl
  rw [h1, h2, sumValues]
  norm_num

/-- A fold that only ever appends the next computed row extends its
starting list. -/
theorem foldl_snoc_extends {β : Type} (g : List RateRow → β → RateRow) :
    ∀ (l : List β) (init : List RateRow),
      ∃ s, l.foldl (fun acc p => acc ++ [g acc p]) init = init ++ s := by
  intro l
  induction l with
  | nil => intro init; exact ⟨[], by simp⟩
  | cons b bs ih =>
    intro init
    obtain ⟨s, hs⟩ := ih (init ++ [g init b])
    exact ⟨[g init b] ++ s, by rw [List.foldl_cons, hs, List.append_assoc]⟩

/-- C4 (amended): the Flask app's background refresh only appends —
the prior table is always a prefix of the result — and leaves the
table untouched on failure; server.py's refresh also leaves the table
untouched on failure, but on success it REPLACES the whole table with
the six fetched rows (prior rows deleted), the behaviour the
counterexample exhibits. -/
theorem rate_refresh_amended :
    (∀ (rs : List RateRow) (resp : Option (List (String × ℚ))) (today : String),
      ∃ newRows, api_update_rates rs resp today = rs ++ newRows) ∧
    (∀ (rs : List RateRow) (today : String),
      api_update_rates rs none today = rs) ∧
    (∀ (rs : List RateRow) (today : String),
      handle_update_rates rs today false = rs) ∧
    (∀ (rs : List RateRow) (today : String),
      (handle_update_rates rs today true).length = serverMockRates.length) := by
  refine ⟨?_, fun rs today => rfl, fun rs today => rfl, fun rs today => ?_⟩
  · intro rs resp today
    cases resp with
    | none => exact ⟨[], by simp [api_update_rates]⟩
    | some fetched =>
      rw [api_update_rates]
      exact foldl_snoc_extends _ _ _
  · simp [handle_update_rates]

/-- C4 counterexample: a manually entered rate row present before
server.py's refresh is gone afterwards — the refresh deletes all prior
rows instead of appending. -/
theorem server_refresh_deletes_counterexample :
    manualRow ∈ [manualRow] ∧
      manualRow ∉ handle_update_rates [manualRow] "2024-06-01" true := by
  refine ⟨List.mem_singleton_self _, fun hmem => ?_⟩
  have hid : manualRow.id ∈
      (handle_update_rates [manualRow] "2024-06-01" true).map (fun r => r.id) :=
    List.mem_map_of_mem _ hmem
  rw [show (handle_update_rates [manualRow] "2024-06-01" true).map (fun r => r.id)
      = [2, 3, 4, 5, 6, 7] from by decide] at hid
  simp [manualRow] at hid

/-- A max-fold only grows its starting value. -/
theorem foldl_max_le_init (l : List Nat) : ∀ a : Nat, a ≤ l.foldl max a := by
  induction l with
  | nil => intro a; exact le_refl a
  | cons b bs ih =>
    intro a
    exact le_trans (le_max_left a b) (ih (max a b))

/-- Every member of a list is bounded by the max-fold. -/
theorem mem_le_foldl_max (l : List Nat) :
    ∀ (a x : Nat), x ∈ l → x ≤ l.foldl max a := by
  induction l with
  | nil => intro a x hx; cases hx
  | cons b bs ih =>
    intro a x hx
    rcases List.mem_cons.mp hx with rfl | hx
    · exact le_trans (le_max_right a x) (foldl_max_le_init bs (max a x))
    · exact ih (max a b) x hx

/-- `freshId` is strictly larger than every id in the table. -/
theorem mem_lt_freshId (l : List Nat) (x : Nat) (hx : x ∈ l) : x < freshId l :=
  Nat.lt_succ_of_le (mem_le_foldl_max l 0 x hx)

/-- Membership in an insertion-sort step. -/
theorem mem_insertTx (a : Tx) :
    ∀ (l : List Tx) (x : Tx), x ∈ insertTx a l ↔ x = a ∨ x ∈ l := by
  intro l
  induction l with
  | nil => intro x; simp [insertTx]
  | cons b bs ih =>
    intro x
    rw [insertTx]
    by_cases h : txLE a b
    · simp [h]
    · rw [if_neg h]
      simp only [List.mem_cons, ih]
      tauto

/-- `sortTx` permutes membership. -/
theorem mem_sortTx : ∀ (l : List Tx) (x : Tx), x ∈ sortTx l ↔ x ∈ l := by
  intro l
  induction l with
  | nil => intro x; simp [sortTx]
  | cons b bs ih =>
    intro x
    rw [sortTx, mem_insertTx]
    simp [ih]

/-- Length of an insertion-sort step. -/
theorem length_insertTx (a : Tx) :
    ∀ l : List Tx, (insertTx a l).length = l.length + 1 := by
  intro l
  induction l with
  | nil => rfl
  | cons b bs ih =>
    rw [insertTx]
    by_cases h : txLE a b
    · simp [h]
    · simp [h, ih]

/-- `sortTx` preserves length. -/
theorem length_sortTx : ∀ l : List Tx, (sortTx l).length = l.length := by
  intro l
  induction l with
  | nil => rfl
  | cons b bs ih =>
    rw [sortTx, length_insertTx, ih, List.length_cons]

/-- An unfiltered, unlimited-enough `get_transactions` call returns
exactly the sorted table, so it holds the same members. -/
theorem mem_get_transactions_all (txs : List Tx) (x : Tx) :
    x ∈ get_transactions txs txs.length none none none ↔ x ∈ txs := by
  simp only [get_transactions]
  rw [List.take_of_length_le (by rw [length_sortTx])]
  exact mem_sortTx txs x

/-- Success characterization of `api_add_transaction`: with every
validation passing and the account resolved to `aid`, the call appends
exactly one normalized row carrying the next fresh id. -/
theorem api_add_transaction_insert
    (store : Store) (sub : TxSubmission) (ds tys cats curs : String) (q : ℚ)
    (y mo da : Nat)
    (hd : sub.date = some ds) (ht : sub.type = some tys)
    (hc : sub.category = some cats) (ha : sub.amount = some (some q))
    (hcur : sub.currency = some curs)
    (hpd : parseIsoDate ds = some (y, mo, da))
    (hty : normType tys ∈ ALLOWED_TYPES) (hq : 0 < q)
    (hcurok : normCurrency curs ∈ CURRENCIES)
    (aid : Nat) (haid : resolvedAccount store sub = some aid) :
    api_add_transaction store sub
      = .ok ({ store with transactions := store.transactions ++
          [{ id := freshId (store.transactions.map (·.id)),
             date := formatIso y mo da, type := normType tys,
             category := cats, amount := q, currency := normCurrency curs,
             account_id := aid, note := sub.note }] },
          freshId (store.transactions.map (·.id))) := by
  rw [api_add_transaction]
  rw [hd, ht, hc, ha, hcur]
  simp only [hpd]
  rw [if_neg (not_not_intro hty)]
  rw [if_neg (not_le.mpr hq)]
  rw [if_neg (not_not_intro hcurok)]
  rw [resolvedAccount] at haid
  cases hsub : sub.account_id with
  | some a =>
    rw [hsub] at haid
    dsimp only at haid ⊢
    by_cases ha0 : a ≠ 0
    · rw [if_pos ha0] at haid
      rw [if_pos ha0]
      cases haid
      rfl
    · rw [if_neg ha0] at haid
      rw [if_neg ha0]
      cases hacc : store.accounts with
      | nil =>
        rw [hacc] at haid
        simp [List.head?] at haid
      | cons acc rest =>
        rw [hacc] at haid
        simp only [List.head?_cons, Option.map] at haid
        injection haid with haid
        subst haid
        rfl
  | none =>
    rw [hsub] at haid
    dsimp only at haid ⊢
    cases hacc : store.accounts with
    | nil =>
      rw [hacc] at haid
      simp [List.head?] at haid
    | cons acc rest =>
      rw [hacc] at haid
      simp only [List.head?_cons, Option.map] at haid
      injection haid with haid
      subst haid
      rfl

/-- C5 (amended): the FLASK endpoint validates in the code's fixed
order and reports only the first violated constraint — malformed date,
then unknown type, then missing/nonpositive amount, then unsupported
currency, each a 400 — and accepts a well-formed submission, storing a
retrievable row under a fresh positive id.  (server.py's handler, by
contrast, performs no validation at all: see the counterexample.) -/
theorem flask_validation_first_violation
    (store : Store) (sub : TxSubmission) (ds tys cats curs : String)
    (amt : Option ℚ)
    (hd : sub.date = some ds) (ht : sub.type = some tys)
    (hc : sub.category = some cats) (ha : sub.amount = some amt)
    (hcur : sub.currency = some curs) :
    (parseIsoDate ds = none →
      api_add_transaction store sub
        = .error "Date must be in YYYY-MM-DD format") ∧
    ((parseIsoDate ds).isSome → normType tys ∉ ALLOWED_TYPES →
      api_add_transaction store sub
        = .error "invalid type (allowed: ['expense', 'income', 'transfer'])") ∧
    ((parseIsoDate ds).isSome → normType tys ∈ ALLOWED_TYPES →
      (amt = none ∨ ∃ q, amt = some q ∧ q ≤ 0) →
      api_add_transaction store sub
        = .error "Invalid amount; must be positive number") ∧
    (∀ q, (parseIsoDate ds).isSome → normType tys ∈ ALLOWED_TYPES →
      amt = some q → 0 < q → normCurrency curs ∉ CURRENCIES →
      api_add_transaction store sub
        = .error ("Unsupported currency: " ++ normCurrency curs)) ∧
    (∀ q, (parseIsoDate ds).isSome → normType tys ∈ ALLOWED_TYPES →
      amt = some q → 0 < q → normCurrency curs ∈ CURRENCIES →
      accountResolvable store sub →
      ∃ s' i, api_add_transaction store sub = .ok (s', i) ∧ 0 < i ∧
        (∀ t ∈ store.transactions, t.id ≠ i) ∧
        (∃ t, t ∈ get_transactions s'.transactions s'.transactions.length
            none none none ∧
          t.id = i ∧ t.amount = q ∧ t.type = normType tys ∧
          t.currency = normCurrency curs ∧ t.category = cats ∧
          t.note = sub.note)) := by
  refine ⟨?_, ?_, ?_, ?_, ?_⟩
  · intro hpd
    rw [api_add_transaction, hd, ht, hc, ha, hcur]
    simp only [hpd]
  · intro hpd hty
    obtain ⟨⟨y, mo, da⟩, hsome⟩ := Option.isSome_iff_exists.mp hpd
    rw [api_add_transaction, hd, ht, hc, ha, hcur]
    simp only [hsome]
    rw [if_pos hty]
  · intro hpd hty hbad
    obtain ⟨⟨y, mo, da⟩, hsome⟩ := Option.isSome_iff_exists.mp hpd
    rw [api_add_transaction, hd, ht, hc, ha, hcur]
    simp only [hsome]
    rw [if_neg (not_not_intro hty)]
    rcases hbad with rfl | ⟨q, rfl, hq⟩
    · rfl
    · dsimp only
      rw [if_pos hq]
  · intro q hpd hty haq hq hcur'
    obtain ⟨⟨y, mo, da⟩, hsome⟩ := Option.isSome_iff_exists.mp hpd
    subst haq
    rw [api_add_transaction, hd, ht, hc, ha, hcur]
    simp only [hsome]
    rw [if_neg (not_not_intro hty)]
    rw [if_neg (not_le.mpr hq), if_pos hcur']
  · intro q hpd hty haq hq hcur' hacc
    obtain ⟨⟨y, mo, da⟩, hsome⟩ := Option.isSome_iff_exists.mp hpd
    subst haq
    have haid : ∃ aid, resolvedAccount store sub = some aid := by
      rcases hacc with ⟨a, hsa, ha0⟩ | ⟨hfalsy, hne⟩
      · exact ⟨a, by rw [resolvedAccount, hsa]; dsimp only; rw [if_pos ha0]⟩
      · cases hl : store.accounts with
        | nil => exact absurd hl hne
        | cons acc rest =>
          rcases hfalsy with hsa | hsa
          · exact ⟨acc.id, by rw [resolvedAccount, hsa, hl]; rfl⟩
          · exact ⟨acc.id, by rw [resolvedAccount, hsa, hl]; simp⟩
    obtain ⟨aid, haid⟩ := haid
    refine ⟨_, _,
      api_add_transaction_insert store sub ds tys cats curs q y mo da
        hd ht hc ha hcur hsome hty hq hcur' aid haid,
      Nat.succ_pos _, ?_, ?_⟩
    · intro t htmem
      exact Nat.ne_of_lt (mem_lt_freshId _ _ (List.mem_map_of_mem _ htmem))
    · refine ⟨⟨freshId (store.transactions.map (·.id)), formatIso y mo da,
          normType tys, cats, q, normCurrency curs, aid, sub.note⟩,
        ?_, rfl, rfl, rfl, rfl, rfl, rfl⟩
      rw [mem_get_transactions_all]
      exact List.mem_append_right _ (List.mem_singleton_self _)

/-- Witness for `flask_validation_first_violation`: a month-13 date is
rejected with the date message even though the same submission also
carries a valid type, amount and currency. -/
theorem flask_validation_first_violation_witness :
    api_add_transaction oneAccountStore subBadDate
      = .error "Date must be in YYYY-MM-DD format" :=
  (flask_validation_first_violation oneAccountStore subBadDate "2024-13-01"
    "income" "Salary" "USD" (some 10) rfl rfl rfl rfl rfl).1 (by rfl)

/-- C5 counterexample: server.py's transaction handler stores a
submission whose amount is −5 and answers success — no 400-class
rejection of `amount ≤ 0` (nor of any other field) happens there. -/
theorem server_accepts_nonpositive_amount :
    handle_add_transaction [] serverBadSub = .ok ([serverBadTx], 1) ∧
      serverBadTx.amount ≤ 0 :=
  ⟨rfl, by decide⟩

/-- Inversion: a successful `api_add_transaction` appends exactly one
row, and that row passed the amount and currency checks. -/
theorem api_add_transaction_ok_shape (store : Store) (sub : TxSubmission)
    (s' : Store) (i : Nat) (h : api_add_transaction store sub = .ok (s', i)) :
    s'.accounts = store.accounts ∧ s'.rates = store.rates ∧
      ∃ t, s'.transactions = store.transactions ++ [t] ∧ 0 < t.amount ∧
        t.currency ∈ CURRENCIES := by
  cases hd : sub.date with
  | none => rw [api_add_transaction, hd] at h; exact absurd h (by simp)
  | some ds =>
  cases ht : sub.type with
  | none => rw [api_add_transaction, hd, ht] at h; exact absurd h (by simp)
  | some tys =>
  cases hc : sub.category with
  | none => rw [api_add_transaction, hd, ht, hc] at h; exact absurd h (by simp)
  | some cats =>
  cases ha : sub.amount with
  | none =>
    rw [api_add_transaction, hd, ht, hc, ha] at h; exact absurd h (by simp)
  | some amt =>
  cases hcur : sub.currency with
  | none =>
    rw [api_add_transaction, hd, ht, hc, ha, hcur] at h
    exact absurd h (by simp)
  | some curs =>
  rw [api_add_transaction, hd, ht, hc, ha, hcur] at h
  dsimp only at h
  cases hpd : parseIsoDate ds with
  | none => rw [hpd] at h; exact absurd h (by simp)
  | some ymd =>
  obtain ⟨y, mo, da⟩ := ymd
  rw [hpd] at h
  dsimp only at h
  by_cases hty : normType tys ∉ ALLOWED_TYPES
  · rw [if_pos hty] at h; exact absurd h (by simp)
  · rw [if_neg hty] at h
    cases amt with
    | none => exact absurd h (by simp)
    | some q =>
    dsimp only at h
    by_cases hq : q ≤ 0
    · rw [if_pos hq] at h; exact absurd h (by simp)
    · rw [if_neg hq] at h
      by_cases hcur' : normCurrency curs ∉ CURRENCIES
      · rw [if_pos hcur'] at h; exact absurd h (by simp)
      · rw [if_neg hcur'] at h
        have hinv : ∀ (aid : Nat) (accs : List Account),
            accs = store.accounts →
            Except.ok ((⟨accs, store.transactions ++
                  [⟨freshId (store.transactions.map (·.id)), formatIso y mo da,
                    normType tys, cats, q, normCurrency curs, aid,
                    sub.note⟩],
                store.rates⟩ : Store),
              freshId (store.transactions.map (·.id)))
              = (Except.ok (s', i) : Except String (Store × Nat)) →
            s'.accounts = store.accounts ∧ s'.rates = store.rates ∧
              ∃ t, s'.transactions = store.transactions ++ [t] ∧
                0 < t.amount ∧ t.currency ∈ CURRENCIES := by
          intro aid accs haccs heq
          injection heq with heq'
          injection heq' with hs hi
          subst hs
          exact ⟨haccs, rfl, ⟨_, rfl, lt_of_not_le hq, not_not.mp hcur'⟩⟩
        cases haid : sub.account_id with
        | some a =>
          rw [haid] at h
          dsimp only at h
          by_cases ha0 : a ≠ 0
          · rw [if_pos ha0] at h
            exact hinv a store.accounts rfl h
          · rw [if_neg ha0] at h
            cases hacc : store.accounts with
            | nil =>
              try rw [hacc] at h
              exact absurd h (by simp)
            | cons acc rest =>
              try rw [hacc] at h
              try dsimp only at h
              try rw [← hacc]
              exact hinv acc.id (acc :: rest) hacc.symm h
        | none =>
          rw [haid] at h
          dsimp only at h
          cases hacc : store.accounts with
          | nil =>
            try rw [hacc] at h
            exact absurd h (by simp)
          | cons acc rest =>
            try rw [hacc] at h
            try dsimp only at h
            try rw [← hacc]
            exact hinv acc.id (acc :: rest) hacc.symm h

/-- Inversion: a successful `api_add_rate` appends exactly one row,
and that row passed the positivity and currency checks. -/
theorem api_add_rate_ok_shape (rates : List RateRow) (sub : RateSubmission)
    (today : String) (rs' : List RateRow)
    (h : api_add_rate rates sub today = .ok rs') :
    ∃ r, rs' = rates ++ [r] ∧ 0 < r.rate ∧ r.from_currency ∈ CURRENCIES ∧
      r.to_currency ∈ CURRENCIES := by
  rw [api_add_rate] at h
  by_cases h0 : strUpper ((sub.from_currency).getD "") = ""
      ∨ strUpper ((sub.to_currency).getD "") = "" ∨ sub.rate = none
  · rw [if_pos h0] at h; exact absurd h (by simp)
  · rw [if_neg h0] at h
    cases hr : sub.rate with
    | none => rw [hr] at h; exact absurd h (by simp)
    | some ropt =>
    rw [hr] at h
    cases ropt with
    | none => exact absurd h (by simp)
    | some q =>
    dsimp only at h
    by_cases hq : q ≤ 0
    · rw [if_pos hq] at h; exact absurd h (by simp)
    · rw [if_neg hq] at h
      by_cases hcur : strUpper ((sub.from_currency).getD "") ∉ CURRENCIES
          ∨ strUpper ((sub.to_currency).getD "") ∉ CURRENCIES
      · rw [if_pos hcur] at h; exact absurd h (by simp)
      · rw [if_neg hcur] at h
        injection h with h'
        push_neg at hcur
        exact ⟨_, h'.symm, lt_of_not_le hq, hcur.1, hcur.2⟩

/-- Inversion: a successful `api_add_account` appends exactly one
account whose currency passed the supported-set check. -/
theorem api_add_account_ok_shape (accounts : List Account)
    (name currency : Option String) (accs' : List Account) (i : Nat)
    (h : api_add_account accounts name currency = .ok (accs', i)) :
    ∃ a, accs' = accounts ++ [a] ∧ a.currency ∈ CURRENCIES := by
  rw [api_add_account] at h
  by_cases hn : strTrim (name.getD "") = ""
  · rw [if_pos hn] at h; exact absurd h (by simp)
  · rw [if_neg hn] at h
    by_cases hcur : normCurrency (currency.getD "") ∉ CURRENCIES
    · rw [if_pos hcur] at h; exact absurd h (by simp)
    · rw [if_neg hcur] at h
      injection h with h'
      injection h' with hs hi
      exact ⟨_, hs.symm, not_not.mp hcur⟩

/-- C6 (amended): rows inserted through the three VALIDATED Flask
endpoints preserve the invariants — every stored transaction has
amount > 0 and a supported currency, every manually added rate is
positive with supported currencies, every account has a supported
currency.  (The background refresh stores whatever rate value the
external source reports, and server.py stores transactions without
validation: see the counterexample.) -/
theorem flask_insert_invariants :
    (∀ (store : Store) (sub : TxSubmission) (s' : Store) (i : Nat),
      api_add_transaction store sub = .ok (s', i) →
      (∀ t ∈ store.transactions, txInv t) → ∀ t ∈ s'.transactions, txInv t) ∧
    (∀ (rates : List RateRow) (sub : RateSubmission) (today : String)
        (rs' : List RateRow),
      api_add_rate rates sub today = .ok rs' →
      (∀ r ∈ rates, rateInv r) → ∀ r ∈ rs', rateInv r) ∧
    (∀ (accounts : List Account) (name currency : Option String)
        (accs' : List Account) (i : Nat),
      api_add_account accounts name currency = .ok (accs', i) →
      (∀ a ∈ accounts, accountInv a) → ∀ a ∈ accs', accountInv a) := by
  refine ⟨?_, ?_, ?_⟩
  · intro store sub s' i h hold t ht
    obtain ⟨-, -, tNew, hs, hq, hcur⟩ :=
      api_add_transaction_ok_shape store sub s' i h
    rw [hs] at ht
    rcases List.mem_append.mp ht with ht | ht
    · exact hold t ht
    · rw [List.mem_singleton.mp ht]
      exact ⟨hq, hcur⟩
  · intro rates sub today rs' h hold r hr
    obtain ⟨rNew, hs, hq, hf, htc⟩ := api_add_rate_ok_shape rates sub today rs' h
    rw [hs] at hr
    rcases List.mem_append.mp hr with hr | hr
    · exact hold r hr
    · rw [List.mem_singleton.mp hr]
      exact ⟨hq, hf, htc⟩
  · intro accounts name currency accs' i h hold a ha
    obtain ⟨aNew, hs, hcur⟩ :=
      api_add_account_ok_shape accounts name currency accs' i h
    rw [hs] at ha
    rcases List.mem_append.mp ha with ha | ha
    · exact hold a ha
    · rw [List.mem_singleton.mp ha]
      exact hcur

/-- Witness for `flask_insert_invariants`: accepting `subGood` into the
one-account store yields a table whose single row satisfies the
transaction invariant. -/
theorem flask_insert_invariants_witness : txInv wTxGood :=
  flask_insert_invariants.1 oneAccountStore subGood storeAfterGood 1
    (by rfl) (by intro t ht; cases ht) wTxGood (by decide)

/-- C6 counterexample: the Flask background refresh inserts the
externally reported value unchecked — a response quoting CNY at 0
stores a rate row with rate 0, violating the claimed `rate > 0`
invariant. -/
theorem refresh_stores_unchecked_rate :
    (api_update_rates [] (some [("CNY", 0)]) "2024-01-01").map
        (fun r => r.rate) = [0] ∧
      ¬ (∀ r ∈ api_update_rates [] (some [("CNY", 0)]) "2024-01-01",
          0 < r.rate) := by
  constructor
  · rfl
  · intro hall
    have hmem : (⟨1, "USD", "CNY", 0, "2024-01-01", "api"⟩ : RateRow)
        ∈ api_update_rates [] (some [("CNY", 0)]) "2024-01-01" := by
      rw [show api_update_rates [] (some [("CNY", 0)]) "2024-01-01"
          = [⟨1, "USD", "CNY", 0, "2024-01-01", "api"⟩] from rfl]
      exact List.mem_singleton_self _
    exact absurd (hall _ hmem) (by decide)

/-- C7 (amended): a supplied NONZERO account_id is stored exactly as
sent, with no check that such an account exists; a missing (or falsy
zero) account_id falls back to the store's first account; and the
insert fails with "No accounts found" only when the fallback is needed
and no account exists. -/
theorem account_id_routing
    (store : Store) (sub : TxSubmission) (ds tys cats curs : String) (q : ℚ)
    (y mo da : Nat)
    (hd : sub.date = some ds) (ht : sub.type = some tys)
    (hc : sub.category = some cats) (ha : sub.amount = some (some q))
    (hcur : sub.currency = some curs)
    (hpd : parseIsoDate ds = some (y, mo, da))
    (hty : normType tys ∈ ALLOWED_TYPES) (hq : 0 < q)
    (hcurok : normCurrency curs ∈ CURRENCIES) :
    (∀ a, sub.account_id = some a → a ≠ 0 →
      ∃ s' i t, api_add_transaction store sub = .ok (s', i) ∧
        s'.transactions = store.transactions ++ [t] ∧ t.account_id = a) ∧
    ((sub.account_id = none ∨ sub.account_id = some 0) →
      store.accounts = [] →
      api_add_transaction store sub = .error "No accounts found") ∧
    (∀ acc rest, (sub.account_id = none ∨ sub.account_id = some 0) →
      store.accounts = acc :: rest →
      ∃ s' i t, api_add_transaction store sub = .ok (s', i) ∧
        s'.transactions = store.transactions ++ [t] ∧ t.account_id = acc.id) := by
  refine ⟨?_, ?_, ?_⟩
  · intro a hsa ha0
    have haid : resolvedAccount store sub = some a := by
      rw [resolvedAccount, hsa]
      dsimp only
      rw [if_pos ha0]
    exact ⟨_, _, _,
      api_add_transaction_insert store sub ds tys cats curs q y mo da
        hd ht hc ha hcur hpd hty hq hcurok a haid, rfl, rfl⟩
  · intro hfalsy haccnil
    rw [api_add_transaction, hd, ht, hc, ha, hcur]
    simp only [hpd]
    rw [if_neg (not_not_intro hty), if_neg (not_le.mpr hq),
      if_neg (not_not_intro hcurok)]
    rcases hfalsy with hsa | hsa
    · rw [hsa]
      dsimp only
      rw [haccnil]
    · rw [hsa]
      dsimp only
      rw [if_neg (by simp), haccnil]
  · intro acc rest hfalsy hacc
    have haid : resolvedAccount store sub = some acc.id := by
      rcases hfalsy with hsa | hsa
      · rw [resolvedAccount, hsa, hacc]
        rfl
      · rw [resolvedAccount, hsa, hacc]
        simp
    exact ⟨_, _, _,
      api_add_transaction_insert store sub ds tys cats curs q y mo da
        hd ht hc ha hcur hpd hty hq hcurok acc.id haid, rfl, rfl⟩

/-- Witness for `account_id_routing`: with no accounts and no supplied
account_id, an otherwise valid submission is rejected with the
"No accounts found" error. -/
theorem account_id_routing_witness :
    api_add_transaction emptyStore subNoAid = .error "No accounts found" :=
  (account_id_routing emptyStore subNoAid "2024-03-01" "income" "Salary"
    "USD" 10 2024 3 1 rfl rfl rfl rfl rfl (by rfl) (by decide) (by decide)
    (by decide)).2.1 (Or.inl rfl) rfl

/-- C7 counterexample: the store holds only account 1, yet a
submission naming account 999 is accepted and stored with
account_id 999 — no existence check happens, contradicting the claim
that a supplied account_id must reference an existing account. -/
theorem dangling_account_counterexample :
    api_add_transaction oneAccountStore sub999 = .ok (storeAfter999, 1) ∧
      (∀ t ∈ storeAfter999.transactions, t.account_id = 999) ∧
      (∀ a ∈ oneAccountStore.accounts, a.id ≠ 999) := by
  refine ⟨rfl, by decide, by decide⟩

/-- C10: the JSON monthly report aggregates over at most the first
10000 rows `get_transactions` returns for the month — its transaction
list is the sorted month filter truncated to 10000, its count is the
min of 10000 and the month's true size (strictly less than the true
size when the month overflows), and the PDF path derives its totals and
row count from the same truncated call. -/
theorem monthly_report_truncates (store : Store) (y m : Nat)
    (hy : y ≠ 0) (hm : m ≠ 0) :
    (api_monthly_report store y m).transactions
        = (sortTx (monthFiltered store y m)).take 10000 ∧
      (api_monthly_report store y m).transaction_count
        = min 10000 (monthFiltered store y m).length ∧
      api_monthly_report_pdf_data store y m
        = ((api_monthly_report store y m).income_total,
            (api_monthly_report store y m).expense_total,
            (api_monthly_report store y m).transaction_count) ∧
      (10000 < (monthFiltered store y m).length →
        (api_monthly_report store y m).transaction_count
          < (monthFiltered store y m).length) := by
  have hg : get_transactions store.transactions 10000 none (some y) (some m)
      = (sortTx (monthFiltered store y m)).take 10000 := by
    rw [get_transactions, monthFiltered]
    rw [if_pos ⟨hy, hm⟩]
  have hcount : (api_monthly_report store y m).transaction_count
      = min 10000 (monthFiltered store y m).length := by
    show (get_transactions store.transactions 10000 none
        (some y) (some m)).length = _
    rw [hg, List.length_take, length_sortTx]
  refine ⟨hg, hcount, rfl, fun hlen => ?_⟩
  rw [hcount]
  omega

/-- Witness for `monthly_report_truncates`: a month holding 10001
transactions reports a transaction_count of exactly 10000. -/
theorem monthly_report_truncates_witness :
    (api_monthly_report bigStore 2024 3).transaction_count = 10000 ∧
      10000 < (monthFiltered bigStore 2024 3).length := by
  have hfil : monthFiltered bigStore 2024 3 = List.replicate 10001 repTx := by
    rw [monthFiltered]
    apply List.filter_eq_self.mpr
    intro a ha
    rw [List.eq_of_mem_replicate ha]
    rfl
  have hlen : (monthFiltered bigStore 2024 3).length = 10001 := by
    rw [hfil, List.length_replicate]
  obtain ⟨-, hcount, -, -⟩ :=
    monthly_report_truncates bigStore 2024 3 (by decide) (by decide)
  refine ⟨?_, ?_⟩
  · rw [hcount, hlen]
    omega
  · rw [hlen]
    omega

end OpenISave
